import Mathlib

/-!
Verification of the access contract of `strawberryfields/gbs/data.py`.

A `Dataset` wraps a fixed sparse sample matrix (`self.data`, shape
`n_samples × modes`) loaded at construction time, together with fixed
metadata (`n_mean`, `threshold`) and a shared iteration cursor `_count`.
We embed the matrix as a list of rows of natural numbers and the cursor
as an explicit field; the metadata fields are carried along so frame
properties can be stated.  All methods of the Python class are embedded
as Lean functions on this state.
-/

set_option autoImplicit false

namespace GBSData

/-- State of a `Dataset` instance after construction.  `rows` is the
sample matrix `self.data` (row list), `modes` is `self.data.shape[1]`,
`n_mean` and `threshold` are the metadata constants supplied by the
concrete leaf class, and `cursor` is the iteration counter `self._count`
(initially `0`). -/
structure Dataset where
  rows : List (List Nat)
  modes : Nat
  n_mean : Rat
  threshold : Bool
  cursor : Nat
  deriving Repr, DecidableEq

namespace Dataset

/-- `self.n_samples`, derived from `self.data.shape[0]`. -/
def n_samples (d : Dataset) : Nat :=
  d.rows.length

/-- The matrix is rectangular: every row has length `modes`.  This holds
for every dataset actually constructed from a scipy matrix of shape
`(n_samples, modes)`. -/
def WF (d : Dataset) : Prop :=
  ∀ r ∈ d.rows, r.length = d.modes

instance (d : Dataset) : Decidable d.WF := by
  unfold WF; infer_instance

/-- `Dataset._elem(i)`, i.e. `list(self.data[i].toarray()[0])`.  Row
indexing of a scipy `csr_matrix` accepts any integer in
`[-n_samples, n_samples)`, normalizing a negative index by adding
`n_samples`, and raises `IndexError` (modelled as `none`) outside that
range. -/
def elem (d : Dataset) (i : Int) : Option (List Nat) :=
  if 0 ≤ i ∧ i < (d.n_samples : Int) then
    d.rows[i.toNat]?
  else if -(d.n_samples : Int) ≤ i ∧ i < 0 then
    d.rows[(i + d.n_samples).toNat]?
  else
    none

/-- The integer branch of `Dataset.__getitem__`:
`self._elem(key + self.n_samples if key < 0 else key)`. -/
def getInt (d : Dataset) (key : Int) : Option (List Nat) :=
  d.elem (if key < 0 then key + d.n_samples else key)

end Dataset

/-- Indexing keys accepted by (or presented to) `Dataset.__getitem__`.
Python `bool` is a subclass of `int`, so a boolean key is a distinct
input shape that nevertheless passes the `isinstance(key, int)` check;
`float` and `str` stand for the unsupported key types. -/
inductive Key where
  | int (i : Int)
  | bool (b : Bool)
  | slice (start stop step : Option Int)
  | tuple (args : List (Option Int))
  | float (q : Rat)
  | str (s : String)
  deriving Repr, DecidableEq

/-- Result of a call to `Dataset.__getitem__`: a single row for integer
keys, a list of rows for slice/tuple keys, or one of the exception kinds
raised (`IndexError`, `TypeError`, `ValueError`). -/
inductive GetResult where
  | row (r : List Nat)
  | rowList (rs : List (List Nat))
  | indexError
  | typeError
  | valueError
  deriving Repr, DecidableEq

/-- Python's `slice.indices(length)`: clamps start/stop into range and
fills in defaults, following CPython's `_PySlice_GetLongIndices`.
Returns `none` exactly when the step is zero (`ValueError`). -/
def sliceIndices (start stop step : Option Int) (length : Nat) : Option (Int × Int × Int) :=
  let n : Int := length
  let st := step.getD 1
  if st = 0 then none
  else
    let lower : Int := if st < 0 then -1 else 0
    let upper : Int := if st < 0 then n - 1 else n
    let a : Int :=
      match start with
      | none => if st < 0 then upper else lower
      | some v => if v < 0 then max (v + n) lower else min v upper
    let b : Int :=
      match stop with
      | none => if st < 0 then lower else upper
      | some v => if v < 0 then max (v + n) lower else min v upper
    some (a, b, st)

/-- Number of elements of Python's `range(a, b, c)` for `c ≠ 0`. -/
def rangeLen (a b c : Int) : Nat :=
  if 0 < c then (if a < b then (b - a - 1).toNat / c.toNat + 1 else 0)
  else (if b < a then (a - b - 1).toNat / (-c).toNat + 1 else 0)

/-- The elements of Python's `range(a, b, c)` in order, for `c ≠ 0`. -/
def pyRange (a b c : Int) : List Int :=
  (List.range (rangeLen a b c)).map (fun k : Nat => a + c * (k : Int))

/-- `slice(*args)`: the slice produced from a tuple of constructor
arguments.  `slice` requires between 1 and 3 arguments and raises
`TypeError` (modelled as `none`) otherwise. -/
def tupleToSlice : List (Option Int) → Option (Option Int × Option Int × Option Int)
  | [b] => some (none, b, none)
  | [a, b] => some (a, b, none)
  | [a, b, c] => some (a, b, c)
  | _ => none

namespace Dataset

/-- The slice branch of `Dataset.__getitem__`:
`range_tuple = key.indices(self.n_samples)` followed by
`[self._elem(i) for i in range(*range_tuple)]`. -/
def getSlice (d : Dataset) (start stop step : Option Int) : GetResult :=
  match sliceIndices start stop step d.n_samples with
  | none => .valueError
  | some (a, b, c) =>
    match (pyRange a b c).mapM (fun i => d.elem i) with
    | some rs => .rowList rs
    | none => .indexError

/-- `Dataset.__getitem__(key)`.  Keys that are neither `int`, `slice`
nor `tuple` raise `TypeError`; an integer key (including `bool`, which
passes `isinstance(key, int)` with `False = 0`, `True = 1`) is
normalized once and passed to `_elem`; a tuple key is converted by
`slice(*key)`; a slice key is resolved via `slice.indices`. -/
def getitem (d : Dataset) (k : Key) : GetResult :=
  match k with
  | .float _ => .typeError
  | .str _ => .typeError
  | .int i =>
    match d.getInt i with
    | some r => .row r
    | none => .indexError
  | .bool b =>
    match d.getInt (if b then 1 else 0) with
    | some r => .row r
    | none => .indexError
  | .tuple args =>
    match tupleToSlice args with
    | none => .typeError
    | some (a, b, c) => d.getSlice a b c
  | .slice a b c => d.getSlice a b c

/-- `Dataset.__len__`. -/
def length (d : Dataset) : Nat :=
  d.n_samples

/-- `Dataset.counts(axis)`, i.e.
`np.array(self.data.sum(axis)).flatten().tolist()`.  Summing the sample
matrix along `axis = 1` (equivalently `-1`) gives the per-sample row
sums (length `n_samples`); along `axis = 0` (equivalently `-2`) the
per-mode column sums (length `modes`); any other axis raises
`ValueError` inside `scipy`, modelled as `none`. -/
def counts (d : Dataset) (axis : Int) : Option (List Nat) :=
  if axis = 1 ∨ axis = -1 then
    some (d.rows.map (fun r => r.sum))
  else if axis = 0 ∨ axis = -2 then
    some ((List.range d.modes).map (fun m => (d.rows.map (fun r => r.getD m 0)).sum))
  else
    none

end Dataset

/-- Outcome of one call to `Dataset.__next__`: a produced row, the
`StopIteration` signal, or an unexpected exception escaping from
`__getitem__`. -/
inductive NextResult where
  | item (r : List Nat)
  | stop
  | err
  deriving Repr, DecidableEq

namespace Dataset

/-- `Dataset.__next__`: while `_count < n_samples`, increment `_count`
and return `self.__getitem__(self._count - 1)` (the pre-increment
cursor); once the cursor reaches `n_samples`, reset it to `0` and raise
`StopIteration`. -/
def next (d : Dataset) : NextResult × Dataset :=
  if d.cursor < d.n_samples then
    (match d.getitem (Key.int (d.cursor : Int)) with
     | GetResult.row r => NextResult.item r
     | _ => NextResult.err,
     { d with cursor := d.cursor + 1 })
  else
    (NextResult.stop, { d with cursor := 0 })

/-- `Dataset.__iter__`: `return self` — the object itself is the
iterator and the shared cursor is left untouched. -/
def iterMethod (d : Dataset) : Dataset :=
  d

/-- Drive the iterator protocol (a Python `for` loop): call `__next__`
repeatedly, collecting produced rows until `StopIteration` (or an
escaping exception) terminates the loop.  The fuel only bounds the
number of calls; `n_samples + 1` calls always suffice (see
`runIterFuel_eq`). -/
def runIterFuel : Nat → Dataset → List (List Nat) × Dataset
  | 0, d => ([], d)
  | fuel + 1, d =>
    match d.next with
    | (NextResult.item r, d') =>
      let p := runIterFuel fuel d'
      (r :: p.1, p.2)
    | (_, d') => ([], d')

/-- Exhaustively iterate over a dataset, returning the produced rows and
the final state of the instance. -/
def runIter (d : Dataset) : List (List Nat) × Dataset :=
  runIterFuel (d.n_samples + 1) d

/-- `Dataset.__getitem__` as a state transformer: the method body
performs no attribute assignment, so the instance after the call is the
instance before it. -/
def getitemS (d : Dataset) (k : Key) : GetResult × Dataset :=
  (d.getitem k, d)

/-- `Dataset.counts` as a state transformer: the method body performs no
attribute assignment. -/
def countsS (d : Dataset) (axis : Int) : Option (List Nat) × Dataset :=
  (d.counts axis, d)

/-- `Dataset.__len__` as a state transformer: the method body performs
no attribute assignment. -/
def lengthS (d : Dataset) : Nat × Dataset :=
  (d.length, d)

end Dataset

/-- State of a `GraphDataset` instance: the base `Dataset` state plus
the dense adjacency matrix `adj` loaded from `<stem>_A.npz`. -/
structure GraphDataset extends Dataset where
  adj : List (List Nat)
  deriving Repr, DecidableEq

/-- State of a `MoleculeDataset` instance: the base `Dataset` state plus
the vibronic parameter arrays `w`, `wp`, `Ud`, `delta` and the
temperature `T`. -/
structure MoleculeDataset extends Dataset where
  w : List Rat
  wp : List Rat
  Ud : List (List Rat)
  delta : List Rat
  T : Rat
  deriving Repr, DecidableEq

/-- `__next__` on a `GraphDataset`: inherited unchanged from `Dataset`,
so it acts on the base attributes only and never touches `adj`. -/
def GraphDataset.next (g : GraphDataset) : NextResult × GraphDataset :=
  ((g.toDataset.next).1, { g with toDataset := (g.toDataset.next).2 })

/-- `__next__` on a `MoleculeDataset`: inherited unchanged from
`Dataset`, so it acts on the base attributes only and never touches
`w`, `wp`, `Ud`, `delta`. -/
def MoleculeDataset.next (m : MoleculeDataset) : NextResult × MoleculeDataset :=
  ((m.toDataset.next).1, { m with toDataset := (m.toDataset.next).2 })

/-- A concrete dataset instance used to witness the universally
quantified theorems below: three samples over two modes. -/
def sampleD : Dataset :=
  { rows := [[1, 0], [0, 2], [3, 1]], modes := 2, n_mean := 8, threshold := true, cursor := 0 }

namespace Dataset

/-! ### Basic lemmas about `_elem` and integer indexing -/

theorem elem_of_nonneg (d : Dataset) (i : Int) (h0 : 0 ≤ i) (h1 : i < (d.n_samples : Int)) :
    d.elem i = some (d.rows.getD i.toNat []) := by
  have hn : d.n_samples = d.rows.length := rfl
  have hi : i.toNat < d.rows.length := by omega
  rw [elem, if_pos ⟨h0, h1⟩, List.getElem?_eq_getElem hi, List.getD_eq_getElem _ _ hi]

theorem elem_of_neg (d : Dataset) (i : Int) (h0 : -(d.n_samples : Int) ≤ i) (h1 : i < 0) :
    d.elem i = d.elem (i + d.n_samples) := by
  have hL : d.elem i = d.rows[(i + d.n_samples).toNat]? := by
    rw [elem, if_neg (by omega), if_pos ⟨h0, h1⟩]
  have hR : d.elem (i + d.n_samples) = d.rows[(i + d.n_samples).toNat]? := by
    rw [elem, if_pos ⟨by omega, by omega⟩]
  rw [hL, hR]

theorem elem_eq_none_iff (d : Dataset) (i : Int) :
    d.elem i = none ↔ (i < -(d.n_samples : Int) ∨ (d.n_samples : Int) ≤ i) := by
  constructor
  · intro h
    by_contra hc
    push_neg at hc
    rcases le_or_lt 0 i with h0 | h0
    · rw [elem_of_nonneg d i h0 (by omega)] at h
      exact Option.noConfusion h
    · rw [elem_of_neg d i (by omega) h0,
        elem_of_nonneg d (i + d.n_samples) (by omega) (by omega)] at h
      exact Option.noConfusion h
  · intro h
    rw [elem, if_neg (by omega), if_neg (by omega)]

theorem getitem_int_eq_indexError_iff (d : Dataset) (k : Int) :
    d.getitem (Key.int k) = GetResult.indexError ↔ d.getInt k = none := by
  cases h : d.getInt k <;> simp [getitem, h]

theorem getInt_eq_none_iff (d : Dataset) (k : Int) :
    d.getInt k = none ↔ ((d.n_samples : Int) ≤ k ∨ k < -(2 * (d.n_samples : Int))) := by
  rw [getInt]
  rcases lt_or_le k 0 with h | h
  · rw [if_pos h, elem_eq_none_iff]
    omega
  · rw [if_neg (by omega), elem_eq_none_iff]
    omega

theorem getInt_of_natLt (d : Dataset) (i : Nat) (h : i < d.n_samples) :
    d.getInt i = some (d.rows.getD i []) := by
  rw [getInt, if_neg (by omega), elem_of_nonneg d i (by omega) (by omega)]
  simp

theorem getitem_of_natLt (d : Dataset) (i : Nat) (h : i < d.n_samples) :
    d.getitem (Key.int i) = GetResult.row (d.rows.getD i []) := by
  simp [getitem, getInt_of_natLt d i h]

theorem getitem_int_congr (d : Dataset) (k1 k2 : Int) (h : d.getInt k1 = d.getInt k2) :
    d.getitem (Key.int k1) = d.getitem (Key.int k2) := by
  simp only [getitem, h]

theorem getitem_int_of_bounds (d : Dataset) (i : Int) (h0 : 0 ≤ i)
    (h1 : i < (d.n_samples : Int)) :
    d.getitem (Key.int i) = GetResult.row (d.rows.getD i.toNat []) := by
  have h : d.getInt i = some (d.rows.getD i.toNat []) := by
    rw [getInt, if_neg (by omega)]
    exact elem_of_nonneg d i h0 h1
  simp [getitem, h]

end Dataset

/-! ### C1: integer keys and the `IndexError` range -/

/-- C1, counterexample: the claim says every integer key outside
`[-n_samples, n_samples)` fails with `IndexError`, but for the
three-sample dataset the key `-4` lies outside `[-3, 3)` and indexing
succeeds, returning the last row: the code adds `n_samples` once and the
sparse row access normalizes the still-negative result a second time. -/
theorem c1_out_of_claimed_range_succeeds :
    sampleD.getitem (Key.int (-4)) = GetResult.row [3, 1] ∧
      ¬ sampleD.getitem (Key.int (-4)) = GetResult.indexError := by
  constructor <;> decide

/-- C1, amended: indexing with an integer key fails with `IndexError`
exactly when the key is `≥ n_samples` or `< -2 * n_samples`; keys in
`[-2 * n_samples, -n_samples)` are accepted because the negative index
is normalized twice (once by `__getitem__`, once by the sparse row
access).  In particular `key = n_samples` fails. -/
theorem c1_indexError_iff (d : Dataset) (k : Int) :
    (d.getitem (Key.int k) = GetResult.indexError ↔
      ((d.n_samples : Int) ≤ k ∨ k < -(2 * (d.n_samples : Int)))) ∧
      d.getitem (Key.int (d.n_samples : Int)) = GetResult.indexError := by
  refine ⟨?_, ?_⟩
  · rw [Dataset.getitem_int_eq_indexError_iff, Dataset.getInt_eq_none_iff]
  · rw [Dataset.getitem_int_eq_indexError_iff, Dataset.getInt_eq_none_iff]
    omega

/-! ### C2: slice keys collect the rows of the normalized range -/

theorem mem_pyRange_pos {a b c : Int} (hc : 0 < c) {i : Int} (h : i ∈ pyRange a b c) :
    a ≤ i ∧ i < b := by
  simp only [pyRange, List.mem_map, List.mem_range] at h
  obtain ⟨k, hk, rfl⟩ := h
  rw [rangeLen, if_pos hc] at hk
  by_cases hab : a < b
  · rw [if_pos hab] at hk
    have hk' : k ≤ (b - a - 1).toNat / c.toNat := Nat.lt_succ_iff.mp hk
    have h1 : (b - a - 1).toNat / c.toNat * c.toNat ≤ (b - a - 1).toNat :=
      Nat.div_mul_le_self _ _
    have hcz : ((c.toNat : Int)) = c := Int.toNat_of_nonneg (le_of_lt hc)
    have hbz : (((b - a - 1).toNat : Nat) : Int) = b - a - 1 := Int.toNat_of_nonneg (by omega)
    have h3 : ((((b - a - 1).toNat / c.toNat : Nat)) : Int) * c ≤ b - a - 1 := by
      calc ((((b - a - 1).toNat / c.toNat : Nat)) : Int) * c
          = (((b - a - 1).toNat / c.toNat * c.toNat : Nat) : Int) := by push_cast [hcz]; ring
        _ ≤ (((b - a - 1).toNat : Nat) : Int) := by exact_mod_cast h1
        _ = b - a - 1 := hbz
    have h2 : c * (k : Int) ≤ c * (((b - a - 1).toNat / c.toNat : Nat) : Int) :=
      mul_le_mul_of_nonneg_left (by exact_mod_cast hk') (le_of_lt hc)
    have h4 : (0 : Int) ≤ c * k := mul_nonneg (le_of_lt hc) (Int.natCast_nonneg k)
    constructor
    · linarith
    · nlinarith [h2, h3]
  · rw [if_neg hab] at hk
    omega

theorem mem_pyRange_neg {a b c : Int} (hc : c < 0) {i : Int} (h : i ∈ pyRange a b c) :
    b < i ∧ i ≤ a := by
  simp only [pyRange, List.mem_map, List.mem_range] at h
  obtain ⟨k, hk, rfl⟩ := h
  rw [rangeLen, if_neg (by omega)] at hk
  by_cases hab : b < a
  · rw [if_pos hab] at hk
    have hk' : k ≤ (a - b - 1).toNat / (-c).toNat := Nat.lt_succ_iff.mp hk
    have h1 : (a - b - 1).toNat / (-c).toNat * (-c).toNat ≤ (a - b - 1).toNat :=
      Nat.div_mul_le_self _ _
    have hcz : (((-c).toNat : Int)) = -c := Int.toNat_of_nonneg (by omega)
    have hbz : (((a - b - 1).toNat : Nat) : Int) = a - b - 1 := Int.toNat_of_nonneg (by omega)
    have h3 : ((((a - b - 1).toNat / (-c).toNat : Nat)) : Int) * (-c) ≤ a - b - 1 := by
      calc ((((a - b - 1).toNat / (-c).toNat : Nat)) : Int) * (-c)
          = (((a - b - 1).toNat / (-c).toNat * (-c).toNat : Nat) : Int) := by
            push_cast [hcz]; ring
        _ ≤ (((a - b - 1).toNat : Nat) : Int) := by exact_mod_cast h1
        _ = a - b - 1 := hbz
    have h2 : (-c) * (k : Int) ≤ (-c) * (((a - b - 1).toNat / (-c).toNat : Nat) : Int) :=
      mul_le_mul_of_nonneg_left (by exact_mod_cast hk') (by omega)
    have h4 : (0 : Int) ≤ (-c) * k := mul_nonneg (by omega) (Int.natCast_nonneg k)
    constructor
    · nlinarith [h2, h3]
    · nlinarith [h4]
  · rw [if_neg hab] at hk
    omega

/-- The start/stop bounds returned by `slice.indices(n)` are clamped to
`[0, n]` for a positive step and to `[-1, n-1]` for a negative step. -/
theorem sliceIndices_bounds {start stop step : Option Int} {n : Nat} {a b c : Int}
    (h : sliceIndices start stop step n = some (a, b, c)) :
    c ≠ 0 ∧
      (0 < c → 0 ≤ a ∧ a ≤ n ∧ 0 ≤ b ∧ b ≤ n) ∧
      (c < 0 → -1 ≤ a ∧ a ≤ (n : Int) - 1 ∧ -1 ≤ b ∧ b ≤ (n : Int) - 1) := by
  rw [sliceIndices] at h
  by_cases hst : step.getD 1 = 0
  · simp only [hst, if_pos rfl] at h
    exact absurd h (by simp)
  · simp only [if_neg hst] at h
    rcases start with _ | v <;> rcases stop with _ | w <;>
      simp only [Option.some.injEq, Prod.mk.injEq] at h <;>
      obtain ⟨ha, hb, hc⟩ := h <;>
      subst ha <;> subst hb <;> subst hc <;>
      refine ⟨hst, ?_, ?_⟩ <;> intro hs <;>
      split_ifs <;> omega

/-- Every index of the range produced by `slice.indices(n_samples)` is a
valid row index in `[0, n)`. -/
theorem pyRange_of_sliceIndices_bounds {start stop step : Option Int} {n : Nat} {a b c : Int}
    (h : sliceIndices start stop step n = some (a, b, c)) {i : Int} (hi : i ∈ pyRange a b c) :
    0 ≤ i ∧ i < (n : Int) := by
  obtain ⟨hc, hpos, hneg⟩ := sliceIndices_bounds h
  rcases lt_or_gt_of_ne hc with hlt | hgt
  · have := mem_pyRange_neg hlt hi
    have := hneg hlt
    omega
  · have := mem_pyRange_pos hgt hi
    have := hpos hgt
    omega

theorem list_mapM_eq_some {α β : Type} (f : α → Option β) (g : α → β) (l : List α)
    (h : ∀ x ∈ l, f x = some (g x)) : l.mapM f = some (l.map g) := by
  induction l with
  | nil => rfl
  | cons x xs ih =>
    rw [List.mapM_cons, h x (List.mem_cons_self x xs),
      ih (fun y hy => h y (List.mem_cons_of_mem x hy))]
    rfl

open Dataset in
/-- C2: for a slice key with explicit bounds `a, b, c` (step `c ≠ 0`),
`get(slice(a,b,c))` returns exactly the rows `get(i)` for `i` in
`range(a, b, c)` normalized against `n_samples` via `slice.indices`, in
range order; an empty normalized range yields the empty sequence. -/
theorem c2_slice_collects_range (d : Dataset) (a b c : Int) (hc : c ≠ 0) :
    ∃ s t, sliceIndices (some a) (some b) (some c) d.n_samples = some (s, t, c) ∧
      d.getitem (Key.slice (some a) (some b) (some c)) =
        GetResult.rowList ((pyRange s t c).map (fun i => d.rows.getD i.toNat [])) ∧
      ∀ i ∈ pyRange s t c, d.getitem (Key.int i) = GetResult.row (d.rows.getD i.toNat []) := by
  obtain ⟨s, t, hst⟩ :
      ∃ s t, sliceIndices (some a) (some b) (some c) d.n_samples = some (s, t, c) := by
    rw [sliceIndices]
    simp only [Option.getD, if_neg hc]
    exact ⟨_, _, rfl⟩
  refine ⟨s, t, hst, ?_, ?_⟩
  · have hmap : (pyRange s t c).mapM (fun i => d.elem i) =
        some ((pyRange s t c).map (fun i => d.rows.getD i.toNat [])) := by
      refine list_mapM_eq_some _ _ _ (fun i hi => ?_)
      obtain ⟨h0, h1⟩ := pyRange_of_sliceIndices_bounds hst hi
      exact elem_of_nonneg d i h0 h1
    simp only [Dataset.getitem, Dataset.getSlice, hst, hmap]
  · intro i hi
    obtain ⟨h0, h1⟩ := pyRange_of_sliceIndices_bounds hst hi
    exact getitem_int_of_bounds d i h0 h1

/-- C2 witness: the slice `[0:3:1]` of the three-sample dataset. -/
theorem c2_slice_collects_range_witness :
    ∃ s t, sliceIndices (some 0) (some 3) (some 1) sampleD.n_samples = some (s, t, 1) ∧
      sampleD.getitem (Key.slice (some 0) (some 3) (some 1)) =
        GetResult.rowList ((pyRange s t 1).map (fun i => sampleD.rows.getD i.toNat [])) ∧
      ∀ i ∈ pyRange s t 1,
        sampleD.getitem (Key.int i) = GetResult.row (sampleD.rows.getD i.toNat []) :=
  c2_slice_collects_range sampleD 0 3 1 (by decide)

/-! ### C3: positive/negative index equivalence -/

/-- C3: for `0 ≤ i < n_samples`, `get(i)` and `get(-(n_samples - i))`
address the same row. -/
theorem c3_pos_neg_equiv (d : Dataset) (i : Int) (h0 : 0 ≤ i)
    (h1 : i < (d.n_samples : Int)) :
    d.getitem (Key.int i) = d.getitem (Key.int (-((d.n_samples : Int) - i))) := by
  have hL : d.getInt i = d.elem i := by
    rw [Dataset.getInt, if_neg (by omega)]
  have hR : d.getInt (-((d.n_samples : Int) - i)) = d.elem i := by
    rw [Dataset.getInt, if_pos (by omega)]
    congr 1
    omega
  exact Dataset.getitem_int_congr d _ _ (hL.trans hR.symm)

/-- C3 witness: the equivalence at `i = 1` in the three-sample dataset. -/
theorem c3_pos_neg_equiv_witness :
    sampleD.getitem (Key.int 1) = sampleD.getitem (Key.int (-((sampleD.n_samples : Int) - 1))) :=
  c3_pos_neg_equiv sampleD 1 (by decide) (by decide)

/-! ### C6: unsupported key types -/

/-- C6: a key that is neither an integer, a slice, nor a tuple — a float
or a string — is rejected with `TypeError`. -/
theorem c6_typeError (d : Dataset) (q : Rat) (s : String) :
    d.getitem (Key.float q) = GetResult.typeError ∧
      d.getitem (Key.str s) = GetResult.typeError :=
  ⟨rfl, rfl⟩

/-! ### C7: tuple keys delegate to slice handling -/

/-- C7: a tuple key is treated as `slice(*tuple)`: one, two or three
elements give exactly the result of the corresponding slice key, while
zero or more than three elements make the slice construction itself fail
with `TypeError`. -/
theorem c7_tuple_eq_slice (d : Dataset) (args : List (Option Int)) :
    d.getitem (Key.tuple args) =
      (match args with
       | [b] => d.getitem (Key.slice none b none)
       | [a, b] => d.getitem (Key.slice a b none)
       | [a, b, c] => d.getitem (Key.slice a b c)
       | _ => GetResult.typeError) := by
  rcases args with _ | ⟨a, _ | ⟨b, _ | ⟨c, _ | ⟨e, rest⟩⟩⟩⟩ <;> rfl

/-! ### C9: boolean keys pass the integer check -/

/-- C9: a boolean key passes the `isinstance(key, int)` check instead of
being rejected: when `n_samples ≥ 2`, `get(False)` returns row `0` and
`get(True)` returns row `1`, agreeing with `get(0)` and `get(1)`. -/
theorem c9_bool_as_int (d : Dataset) (h : 2 ≤ d.n_samples) :
    d.getitem (Key.bool false) = GetResult.row (d.rows.getD 0 []) ∧
      d.getitem (Key.bool true) = GetResult.row (d.rows.getD 1 []) ∧
      d.getitem (Key.bool false) = d.getitem (Key.int 0) ∧
      d.getitem (Key.bool true) = d.getitem (Key.int 1) := by
  have h0 : d.getInt 0 = some (d.rows.getD 0 []) := Dataset.getInt_of_natLt d 0 (by omega)
  have h1 : d.getInt 1 = some (d.rows.getD 1 []) := Dataset.getInt_of_natLt d 1 (by omega)
  refine ⟨?_, ?_, ?_, ?_⟩ <;> simp [Dataset.getitem, h0, h1]

/-- C9 witness: boolean indexing on the three-sample dataset. -/
theorem c9_bool_as_int_witness :
    sampleD.getitem (Key.bool false) = GetResult.row (sampleD.rows.getD 0 []) ∧
      sampleD.getitem (Key.bool true) = GetResult.row (sampleD.rows.getD 1 []) ∧
      sampleD.getitem (Key.bool false) = sampleD.getitem (Key.int 0) ∧
      sampleD.getitem (Key.bool true) = sampleD.getitem (Key.int 1) :=
  c9_bool_as_int sampleD (by decide)

/-! ### C4 and C10: the iteration protocol -/

theorem runIterFuel_eq (fuel : Nat) (d : Dataset)
    (h : d.rows.length - d.cursor + 1 ≤ fuel) :
    Dataset.runIterFuel fuel d = (d.rows.drop d.cursor, { d with cursor := 0 }) := by
  induction fuel generalizing d with
  | zero => omega
  | succ f ih =>
    have hlen : d.n_samples = d.rows.length := rfl
    rw [Dataset.runIterFuel]
    by_cases hc : d.cursor < d.n_samples
    · have hcL : d.cursor < d.rows.length := by omega
      have hrow := Dataset.getitem_of_natLt d d.cursor hc
      simp only [Dataset.next, if_pos hc, hrow]
      rw [ih { d with cursor := d.cursor + 1 } (by simp; omega)]
      rw [List.drop_eq_getElem_cons hcL, List.getD_eq_getElem _ _ hcL]
    · simp only [Dataset.next, if_neg hc]
      rw [List.drop_eq_nil_of_le (by omega)]

theorem runIter_eq (d : Dataset) :
    d.runIter = (d.rows.drop d.cursor, { d with cursor := 0 }) := by
  have hlen : d.n_samples = d.rows.length := rfl
  exact runIterFuel_eq _ d (by omega)

/-- C4: exhaustively iterating a freshly constructed dataset produces
exactly the rows `get(0), ..., get(n_samples - 1)` in that order, so the
number of produced rows equals `length()`; exhaustion resets the shared
cursor to `0`, so a second exhaustive iteration on the same instance
yields the same sequence. -/
theorem c4_iteration_restartable (d : Dataset) (h : d.cursor = 0) :
    (d.runIter).1.length = d.length ∧
      (∀ i : Nat, i < d.length →
        d.getitem (Key.int (i : Int)) = GetResult.row ((d.runIter).1.getD i [])) ∧
      ((d.runIter).2).cursor = 0 ∧
      ((d.runIter).2).runIter.1 = (d.runIter).1 := by
  rw [runIter_eq, runIter_eq]
  simp only [h, List.drop_zero]
  exact ⟨rfl, fun i hi => Dataset.getitem_of_natLt d i hi, trivial, trivial⟩

/-- C4 witness: iterating the three-sample dataset twice. -/
theorem c4_iteration_restartable_witness :
    (sampleD.runIter).1.length = sampleD.length ∧
      (∀ i : Nat, i < sampleD.length →
        sampleD.getitem (Key.int (i : Int)) =
          GetResult.row ((sampleD.runIter).1.getD i [])) ∧
      ((sampleD.runIter).2).cursor = 0 ∧
      ((sampleD.runIter).2).runIter.1 = (sampleD.runIter).1 :=
  c4_iteration_restartable sampleD rfl

/-- C10: `__iter__` returns the object itself and leaves the shared
cursor untouched, so an iteration begun after a partial one resumes from
the stored cursor position (producing only the remaining suffix of the
rows, not the full sequence from index `0`); `__next__` advances the
cursor while it is below `n_samples` and resets it to `0` only in the
exhaustion branch. -/
theorem c10_iter_resumes_from_cursor (d : Dataset) :
    d.iterMethod = d ∧
      ((d.iterMethod).runIter).1 = d.rows.drop d.cursor ∧
      ((d.next).2).cursor = (if d.cursor < d.n_samples then d.cursor + 1 else 0) := by
  refine ⟨rfl, ?_, ?_⟩
  · rw [Dataset.iterMethod, runIter_eq]
  · by_cases hc : d.cursor < d.n_samples <;> simp [Dataset.next, hc]

/-! ### C5: counts along each axis -/

theorem list_map_eq_range_map {α β : Type} (l : List α) (x : α) (f : α → β) :
    l.map f = (List.range l.length).map (fun k => f (l.getD k x)) := by
  refine List.ext_getElem (by simp) (fun i h1 h2 => ?_)
  have hl : i < l.length := by simpa using h1
  simp only [List.getElem_map, List.getElem_range]
  rw [List.getD_eq_getElem _ _ hl]

/-- C5: `counts(axis=1)` is the list of per-sample sums, of length
`n_samples`, whose `k`-th entry is the sum of the entries of `get(k)`;
`counts(axis=0)` is the list of per-mode column sums, of length `modes`,
whose `m`-th entry is the sum over all samples of column `m`. -/
theorem c5_counts_sums (d : Dataset) (hwf : d.WF) :
    (∃ l1, d.counts 1 = some l1 ∧ l1.length = d.n_samples ∧
      ∀ k : Nat, k < d.n_samples →
        ∃ r, d.getitem (Key.int (k : Int)) = GetResult.row r ∧ l1.getD k 0 = r.sum) ∧
    (∃ l0, d.counts 0 = some l0 ∧ l0.length = d.modes ∧
      ∀ m : Nat, m < d.modes →
        l0.getD m 0 = ((List.range d.n_samples).map (fun k : Nat =>
          match d.getitem (Key.int (k : Int)) with
          | GetResult.row r => r.getD m 0
          | _ => 0)).sum) := by
  constructor
  · refine ⟨d.rows.map (fun r => r.sum), by rw [Dataset.counts]; norm_num,
      by simp [Dataset.n_samples], fun k hk => ?_⟩
    refine ⟨d.rows.getD k [], Dataset.getitem_of_natLt d k hk, ?_⟩
    have hkL : k < d.rows.length := hk
    have hkM : k < (d.rows.map (fun r => r.sum)).length := by simpa using hkL
    rw [List.getD_eq_getElem _ _ hkM, List.getD_eq_getElem _ _ hkL, List.getElem_map]
  · refine ⟨(List.range d.modes).map
        (fun m => (d.rows.map (fun r => r.getD m 0)).sum),
      by rw [Dataset.counts]; norm_num, by simp, fun m hm => ?_⟩
    have hmM : m < ((List.range d.modes).map
        (fun m => (d.rows.map (fun r => r.getD m 0)).sum)).length := by simpa using hm
    rw [List.getD_eq_getElem _ _ hmM, List.getElem_map]
    have hcongr : (List.range d.n_samples).map (fun k : Nat =>
        match d.getitem (Key.int (k : Int)) with
        | GetResult.row r => r.getD m 0
        | _ => 0) =
        (List.range d.n_samples).map (fun k : Nat => (d.rows.getD k []).getD m 0) := by
      refine List.map_congr_left (fun k hk => ?_)
      have hkn : k < d.n_samples := List.mem_range.mp hk
      rw [Dataset.getitem_of_natLt d k hkn]
    have hns : d.n_samples = d.rows.length := rfl
    rw [hcongr, List.getElem_range, hns,
      ← list_map_eq_range_map d.rows [] (fun r => r.getD m 0)]

/-- C5 witness: counts of the three-sample dataset along both axes. -/
theorem c5_counts_sums_witness :
    (∃ l1, sampleD.counts 1 = some l1 ∧ l1.length = sampleD.n_samples ∧
      ∀ k : Nat, k < sampleD.n_samples →
        ∃ r, sampleD.getitem (Key.int (k : Int)) = GetResult.row r ∧
          l1.getD k 0 = r.sum) ∧
    (∃ l0, sampleD.counts 0 = some l0 ∧ l0.length = sampleD.modes ∧
      ∀ m : Nat, m < sampleD.modes →
        l0.getD m 0 = ((List.range sampleD.n_samples).map (fun k : Nat =>
          match sampleD.getitem (Key.int (k : Int)) with
          | GetResult.row r => r.getD m 0
          | _ => 0)).sum) :=
  c5_counts_sums sampleD (by decide)

/-! ### C8: no operation mutates data or metadata -/

/-- C8: none of the access operations mutates the attributes populated
at construction: `__getitem__`, `counts` and `__len__` perform no
attribute assignment, and `__iter__`, `__next__` and exhaustive
iteration touch only the cursor `_count`, leaving `data`, `n_samples`,
`modes`, `n_mean`, `threshold` — and the subclass arrays `adj`, `w`,
`wp`, `Ud`, `delta` — exactly as loaded. -/
theorem c8_attributes_immutable (d : Dataset) (k : Key) (axis : Int)
    (g : GraphDataset) (m : MoleculeDataset) :
    ((d.getitemS k).2 = d ∧ (d.countsS axis).2 = d ∧ d.lengthS.2 = d ∧
      d.iterMethod = d) ∧
    (((d.next).2).rows = d.rows ∧ ((d.next).2).modes = d.modes ∧
      ((d.next).2).n_mean = d.n_mean ∧ ((d.next).2).threshold = d.threshold ∧
      ((d.next).2).n_samples = d.n_samples) ∧
    (((d.runIter).2).rows = d.rows ∧ ((d.runIter).2).modes = d.modes ∧
      ((d.runIter).2).n_mean = d.n_mean ∧ ((d.runIter).2).threshold = d.threshold ∧
      ((d.runIter).2).n_samples = d.n_samples) ∧
    (((g.next).2).adj = g.adj ∧ ((m.next).2).w = m.w ∧ ((m.next).2).wp = m.wp ∧
      ((m.next).2).Ud = m.Ud ∧ ((m.next).2).delta = m.delta) := by
  have hnext2 : (d.next).2 =
      (if d.cursor < d.n_samples then { d with cursor := d.cursor + 1 }
        else { d with cursor := 0 }) := by
    by_cases hc : d.cursor < d.n_samples <;> simp [Dataset.next, hc]
  have hrun2 : (d.runIter).2 = { d with cursor := 0 } := by rw [runIter_eq]
  refine ⟨⟨rfl, rfl, rfl, rfl⟩, ?_, ?_, rfl, rfl, rfl, rfl, rfl⟩
  · rw [hnext2]
    by_cases hc : d.cursor < d.n_samples
    · rw [if_pos hc]
      exact ⟨rfl, rfl, rfl, rfl, rfl⟩
    · rw [if_neg hc]
      exact ⟨rfl, rfl, rfl, rfl, rfl⟩
  · rw [hrun2]
    exact ⟨rfl, rfl, rfl, rfl, rfl⟩

end GBSData
